import Mathlib

/-!
Verification of the matrix rescaling routine `scaleMatrix` from
`GTools/util.py` (the MatrixRescaler of the design spec).

The grid is embedded as a list of rows of rationals (`Grid`); numpy
arrays of floats become exact rational matrices, and the exceptions
raised by the routine become an `Except` error value.  Each numpy operation used by
the source is translated as follows:

* `np.zeros` / elementwise construction: `mkGrid h w f`, the matrix of
  shape `h x w` whose entry at `(i, j)` is `f i j`;
* `np.concatenate((mat, np.zeros((yPad, cols))), 0)`: `padBottom`;
* `np.concatenate((mat, np.zeros((rows, xPad))), 1)`: `padRight`;
* the accumulation loop `for yo: for xo: out += mat[yo::ys, xo::xs]`
  followed by `out = out/(xs*ys)`: `rawDown` (each entry is the sum of
  the entries of the corresponding `ys x xs` block, divided by `xs*ys`);
* the three in-place boundary corrections
  `out[:-1,-1] *= ys/(ys-yPad)`, `out[-1,:-1] *= xs/(xs-xPad)` and
  `out[-1,-1] *= ys*xs/(ys-yPad)/(xs-xPad)`: `corrected`, built from the
  per-entry function `corrCell` (the three target regions are disjoint,
  so a pointwise description is exact);
* the strided-write upscale loop `for yo: for xo:
  out[yo::ys, xo::xs] = mat`: `upscaled`.  Each output position `(r, c)`
  is written exactly once, by the pass with `yo = r % ys`,
  `xo = c % xs`, and receives `mat[r / ys][c / xs]`; `upscaled` records
  that final state directly.
-/

namespace GeoKit

/-- A two-dimensional grid of numeric samples: a list of rows. -/
abbrev Grid := List (List ℚ)

/-- `mat.shape[0]`: the number of rows. -/
def shape0 (mat : Grid) : ℕ := mat.length

/-- `mat.shape[1]`: the length of the first row (0 for an empty grid);
for a rectangular grid this is the number of columns. -/
def shape1 (mat : Grid) : ℕ := (mat.headD []).length

/-- Entry access `mat[i][j]` (out-of-range reads default to 0; all uses
in the development stay in range). -/
def cell (mat : Grid) (i j : ℕ) : ℚ := (mat.getD i []).getD j 0

/-- The grid is a rectangular `m x n` array (the numpy `ndarray`
well-formedness assumption). -/
def IsRect (mat : Grid) (m n : ℕ) : Prop :=
  mat.length = m ∧ ∀ row ∈ mat, row.length = n

instance (mat : Grid) (m n : ℕ) : Decidable (IsRect mat m n) := by
  unfold IsRect; infer_instance

/-- Matrix of shape `h x w` with entry `f i j` at `(i, j)`. -/
def mkGrid (h w : ℕ) (f : ℕ → ℕ → ℚ) : Grid :=
  (List.range h).map fun i => (List.range w).map fun j => f i j

/-- The two error outcomes used by `scaleMatrix`: in the source both are
raised as `GToolsError`, distinguished by their messages (scaled down
only by a factor of the dimensions, and dimensions must be scaled in
the same direction); the spec names them `NonDivisibleScale` and
`MixedDirectionScale`. -/
inductive ScaleErr where
  | nonDivisible
  | mixedDirection
  deriving DecidableEq

/-- Result of the strided-write upscale loop
`for yo in range(ys): for xo in range(xs): out[yo::ys, xo::xs] = mat`:
position `(r, c)` is written exactly once (by the pass
`yo = r % ys`, `xo = c % xs`) with the value `mat[r / ys][c / xs]`. -/
def upscaled (mat : Grid) (ys xs : ℕ) : Grid :=
  mkGrid (shape0 mat * ys) (shape1 mat * xs) fun r c => cell mat (r / ys) (c / xs)

/-- The sum accumulated at output position `(i, j)` by the downscale
loop `for yo: for xo: out += mat[yo::ys, xo::xs]`: the sum of the
`ys x xs` block of `mat` starting at `(i*ys, j*xs)`, iterated in the
same loop order as the source. -/
def blockSum (mat : Grid) (ys xs i j : ℕ) : ℚ :=
  ((List.range ys).map fun yo =>
    ((List.range xs).map fun xo => cell mat (i * ys + yo) (j * xs + xo)).sum).sum

/-- The downscaled matrix before boundary correction:
the accumulation loop followed by `out = out/(xScale*yScale)`. -/
def rawDown (mat : Grid) (ys xs : ℕ) : Grid :=
  mkGrid (shape0 mat / ys) (shape1 mat / xs) fun i j =>
    blockSum mat ys xs i j / ((xs : ℚ) * (ys : ℚ))

/-- The three guarded in-place boundary corrections of the source,
applied to the entry `v` at position `(i, j)` of an `h x w` output:

* `if yPad>0: out[:-1,-1] *= yScale/(yScale-yPad)` touches the entries
  with `j = w-1` and `i != h-1` (the last column minus its bottom cell);
* `if xPad>0: out[-1,:-1] *= xScale/(xScale-xPad)` touches the entries
  with `i = h-1` and `j != w-1` (the last row minus its rightmost cell);
* `if yPad>0: out[-1,-1] *= yScale*xScale/(yScale-yPad)/(xScale-xPad)`
  touches the bottom-right corner only. -/
def corrCell (ys xs yPad xPad h w i j : ℕ) (v : ℚ) : ℚ :=
  let v1 := if 0 < yPad ∧ j = w - 1 ∧ i ≠ h - 1 then
    v * ((ys : ℚ) / ((ys : ℚ) - (yPad : ℚ))) else v
  let v2 := if 0 < xPad ∧ i = h - 1 ∧ j ≠ w - 1 then
    v1 * ((xs : ℚ) / ((xs : ℚ) - (xPad : ℚ))) else v1
  if 0 < yPad ∧ i = h - 1 ∧ j = w - 1 then
    v2 * (((ys : ℚ) * (xs : ℚ)) / (((ys : ℚ) - (yPad : ℚ)) * ((xs : ℚ) - (xPad : ℚ)))) else v2

/-- The output of the downscale path after the boundary corrections. -/
def corrected (out : Grid) (ys xs yPad xPad : ℕ) : Grid :=
  mkGrid out.length (shape1 out) fun i j =>
    corrCell ys xs yPad xPad out.length (shape1 out) i j (cell out i j)

/-- The whole downscale computation on an (already padded) matrix of the
source: block sums, division by `xScale*yScale`, boundary correction. -/
def downCore (mat : Grid) (ys xs yPad xPad : ℕ) : Grid :=
  corrected (rawDown mat ys xs) ys xs yPad xPad

/-- Padding amount for one axis in the lenient (non-strict) downscale:
`pad = scale - len % scale`, reset to 0 when it equals `scale`
(i.e. when `scale` already divides `len`). -/
def yPadOf (len s : ℕ) : ℕ :=
  if s - len % s = s then 0 else s - len % s

/-- `np.concatenate((mat, np.zeros((yPad, cols))), 0)`:
append `yPad` rows of zeros of width `cols`. -/
def padBottom (mat : Grid) (yPad cols : ℕ) : Grid :=
  mat ++ List.replicate yPad (List.replicate cols (0 : ℚ))

/-- `np.concatenate((mat, np.zeros((rows, xPad))), 1)`:
append `xPad` zeros to every row. -/
def padRight (mat : Grid) (xPad : ℕ) : Grid :=
  mat.map fun row => row ++ List.replicate xPad (0 : ℚ)

/-- The padded matrix built by the lenient downscale path: bottom zero
rows first (using the original widths), then right zero columns (on the
already bottom-padded matrix), each applied only when its pad is
positive. -/
def paddedOf (mat : Grid) (ys xs : ℕ) : Grid :=
  let yPad := yPadOf (shape0 mat) ys
  let xPad := yPadOf (shape1 mat) xs
  let mat1 := if 0 < yPad then padBottom mat yPad (shape1 mat) else mat
  if 0 < xPad then padRight mat1 xPad else mat1

/-- The rescaler `scaleMatrix(mat, (yScale, xScale), strict)` of
`GTools/util.py`, with the scale pair already unpacked (the integer
type check is absorbed by the `ℤ` argument types).  Branches, in source
order: both factors zero returns the input itself; both positive is the
upscale; both negative is the downscale (strict divisibility check, or
lenient padding); any remaining sign combination is the
same-direction error. -/
def scaleMatrix (mat : Grid) (yScale xScale : ℤ) (strict : Bool) : Except ScaleErr Grid :=
  if xScale = 0 ∧ yScale = 0 then
    .ok mat
  else if 0 < xScale ∧ 0 < yScale then
    .ok (upscaled mat yScale.toNat xScale.toNat)
  else if xScale < 0 ∧ yScale < 0 then
    if strict then
      if ¬(shape0 mat % (-yScale).toNat = 0 ∧ shape1 mat % (-xScale).toNat = 0) then
        .error .nonDivisible
      else
        .ok (downCore mat (-yScale).toNat (-xScale).toNat 0 0)
    else
      .ok (downCore (paddedOf mat (-yScale).toNat (-xScale).toNat)
            (-yScale).toNat (-xScale).toNat
            (yPadOf (shape0 mat) (-yScale).toNat) (yPadOf (shape1 mat) (-xScale).toNat))
  else
    .error .mixedDirection

/-- The 4x4 worked-example grid of the source docstring and of the
spec. -/
def exampleGrid : Grid := [[1, 1, 1, 1], [2, 2, 3, 3], [4, 4, 5, 5], [6, 7, 8, 9]]

/-- A 4x4 grid of ones, used as a distinguishing input for the
boundary-correction claims. -/
def onesGrid4 : Grid :=
  List.replicate 4 (List.replicate 4 (1 : ℚ))

/-! ### Basic lemmas about the grid constructors -/

theorem mkGrid_length (h w : ℕ) (f : ℕ → ℕ → ℚ) : (mkGrid h w f).length = h := by
  simp [mkGrid]

theorem cell_mkGrid {h w i j : ℕ} (f : ℕ → ℕ → ℚ) (hi : i < h) (hj : j < w) :
    cell (mkGrid h w f) i j = f i j := by
  have hi' : i < (mkGrid h w f).length := by simpa [mkGrid_length] using hi
  unfold cell
  rw [List.getD_eq_getElem _ _ hi']
  have hrow : (mkGrid h w f)[i] = (List.range w).map fun j => f i j := by
    simp [mkGrid]
  rw [hrow]
  have hj' : j < ((List.range w).map fun j => f i j).length := by simpa using hj
  rw [List.getD_eq_getElem _ _ hj']
  simp

theorem shape1_mkGrid {h : ℕ} (w : ℕ) (f : ℕ → ℕ → ℚ) (hh : 0 < h) :
    shape1 (mkGrid h w f) = w := by
  obtain ⟨k, rfl⟩ := Nat.exists_eq_succ_of_ne_zero hh.ne'
  simp [shape1, mkGrid, List.range_succ_eq_map]

theorem isRect_mkGrid (h w : ℕ) (f : ℕ → ℕ → ℚ) : IsRect (mkGrid h w f) h w := by
  constructor
  · simp [mkGrid]
  · intro row hrow
    simp only [mkGrid, List.mem_map] at hrow
    obtain ⟨i, _, rfl⟩ := hrow
    simp

theorem shape1_of_isRect {mat : Grid} {m n : ℕ} (hr : IsRect mat m n) (hm : 0 < m) :
    shape1 mat = n := by
  obtain ⟨hlen, hrow⟩ := hr
  cases mat with
  | nil =>
      simp at hlen
      exact absurd hm (by omega)
  | cons r t =>
      simpa [shape1] using hrow r (List.mem_cons_self r t)

theorem mkGrid_congr {h w : ℕ} {f g : ℕ → ℕ → ℚ}
    (H : ∀ i < h, ∀ j < w, f i j = g i j) :
    mkGrid h w f = mkGrid h w g := by
  unfold mkGrid
  refine List.map_congr_left ?_
  intro i hi
  refine List.map_congr_left ?_
  intro j hj
  exact H i (List.mem_range.mp hi) j (List.mem_range.mp hj)

theorem mkGrid_cell_self {mat : Grid} {m n : ℕ} (hr : IsRect mat m n) :
    mkGrid m n (cell mat) = mat := by
  obtain ⟨hlen, hrow⟩ := hr
  apply List.ext_getElem
  · simp [mkGrid_length, hlen]
  · intro i h1 h2
    have hi' : (mkGrid m n (cell mat))[i] = (List.range n).map fun j => cell mat i j := by
      simp [mkGrid]
    rw [hi']
    apply List.ext_getElem
    · simp [hrow mat[i] (List.getElem_mem h2)]
    · intro j hj1 hj2
      simp only [List.getElem_map, List.getElem_range]
      unfold cell
      rw [List.getD_eq_getElem _ _ h2, List.getD_eq_getElem _ _ hj2]

/-! ### Lemmas about the individual pipeline stages -/

theorem blockSum_eq_sum (mat : Grid) (ys xs i j : ℕ) :
    blockSum mat ys xs i j
      = ∑ yo in Finset.range ys, ∑ xo in Finset.range xs,
          cell mat (i * ys + yo) (j * xs + xo) := rfl

theorem length_rawDown (mat : Grid) (ys xs : ℕ) :
    (rawDown mat ys xs).length = shape0 mat / ys :=
  mkGrid_length _ _ _

theorem cell_rawDown {mat : Grid} {ys xs i j : ℕ}
    (hi : i < shape0 mat / ys) (hj : j < shape1 mat / xs) :
    cell (rawDown mat ys xs) i j = blockSum mat ys xs i j / ((xs : ℚ) * (ys : ℚ)) :=
  cell_mkGrid _ hi hj

theorem cell_corrected {O : Grid} (ys xs yPad xPad : ℕ) {i j : ℕ}
    (hi : i < O.length) (hj : j < shape1 O) :
    cell (corrected O ys xs yPad xPad) i j
      = corrCell ys xs yPad xPad O.length (shape1 O) i j (cell O i j) :=
  cell_mkGrid _ hi hj

theorem corrCell_zero (ys xs h w i j : ℕ) (v : ℚ) :
    corrCell ys xs 0 0 h w i j v = v := by
  simp [corrCell]

theorem length_upscaled (mat : Grid) (ys xs : ℕ) :
    (upscaled mat ys xs).length = shape0 mat * ys :=
  mkGrid_length _ _ _

theorem cell_upscaled {mat : Grid} {ys xs r c : ℕ}
    (hr : r < shape0 mat * ys) (hc : c < shape1 mat * xs) :
    cell (upscaled mat ys xs) r c = cell mat (r / ys) (c / xs) :=
  cell_mkGrid _ hr hc

theorem block_lt_mul {i s len off : ℕ} (hi : i < len) (hoff : off < s) :
    i * s + off < len * s := by
  calc i * s + off < i * s + s := by omega
    _ = (i + 1) * s := by ring
    _ ≤ len * s := Nat.mul_le_mul_right s hi

theorem block_div {i s off : ℕ} (hs : 0 < s) (hoff : off < s) :
    (i * s + off) / s = i := by
  have h : i * s + off = off + s * i := by ring
  rw [h, Nat.add_mul_div_left _ _ hs, Nat.div_eq_of_lt hoff, Nat.zero_add]

theorem cell_upscaled_block {mat : Grid} {ys xs i j yo xo : ℕ}
    (hys : 0 < ys) (hxs : 0 < xs)
    (hi : i < shape0 mat) (hj : j < shape1 mat) (hyo : yo < ys) (hxo : xo < xs) :
    cell (upscaled mat ys xs) (i * ys + yo) (j * xs + xo) = cell mat i j := by
  rw [cell_upscaled (block_lt_mul hi hyo) (block_lt_mul hj hxo),
      block_div hys hyo, block_div hxs hxo]

theorem shape1_rawDown {mat : Grid} {ys : ℕ} (xs : ℕ) (h0 : 0 < shape0 mat / ys) :
    shape1 (rawDown mat ys xs) = shape1 mat / xs :=
  shape1_mkGrid _ _ h0

theorem isRect_downCore (mat : Grid) (ys xs yPad xPad : ℕ) (h0 : 0 < shape0 mat / ys) :
    IsRect (downCore mat ys xs yPad xPad) (shape0 mat / ys) (shape1 mat / xs) := by
  unfold downCore corrected
  rw [length_rawDown, shape1_rawDown xs h0]
  exact isRect_mkGrid _ _ _

theorem cell_downCore_noPad {mat : Grid} {ys xs i j : ℕ} (h0 : 0 < shape0 mat / ys)
    (hi : i < shape0 mat / ys) (hj : j < shape1 mat / xs) :
    cell (downCore mat ys xs 0 0) i j = blockSum mat ys xs i j / ((xs : ℚ) * (ys : ℚ)) := by
  unfold downCore
  rw [cell_corrected ys xs 0 0 (by rwa [length_rawDown])
        (by rwa [shape1_rawDown xs h0]),
      corrCell_zero, cell_rawDown hi hj]

/-! ### Lemmas about the padding computation -/

theorem yPadOf_of_mod_eq_zero {len s : ℕ} (h : len % s = 0) : yPadOf len s = 0 := by
  simp [yPadOf, h]

theorem yPadOf_lt {len s : ℕ} (hs : 0 < s) (h : 0 < yPadOf len s) : yPadOf len s < s := by
  unfold yPadOf at *
  split_ifs at h ⊢ with hc
  · omega
  · have h1 : len % s < s := Nat.mod_lt _ hs
    omega

theorem padded_mod {m s : ℕ} (hs : 0 < s) : (m + yPadOf m s) % s = 0 := by
  unfold yPadOf
  have h1 : m % s < s := Nat.mod_lt _ hs
  have h2 : s * (m / s) + m % s = m := Nat.div_add_mod m s
  split_ifs with hc
  · have hm0 : m % s = 0 := by omega
    simpa using hm0
  · have h3 : m + (s - m % s) = s * (m / s) + s := by omega
    rw [h3]
    have h4 : s * (m / s) + s = s * (m / s + 1) := by ring
    rw [h4, Nat.mul_mod_right]

theorem div_pos_of_mod_eq_zero {m s : ℕ} (hm : 0 < m) (hs : 0 < s) (h : m % s = 0) :
    0 < m / s :=
  Nat.div_pos (Nat.le_of_dvd hm (Nat.dvd_of_mod_eq_zero h)) hs

theorem isRect_padBottom {mat : Grid} {m n : ℕ} (hr : IsRect mat m n) (p : ℕ) :
    IsRect (padBottom mat p n) (m + p) n := by
  obtain ⟨hlen, hrow⟩ := hr
  constructor
  · simp [padBottom, hlen]
  · intro row hmem
    simp only [padBottom, List.mem_append] at hmem
    rcases hmem with hmem | hmem
    · exact hrow row hmem
    · rw [List.eq_of_mem_replicate hmem]
      simp

theorem isRect_padRight {mat : Grid} {m n : ℕ} (hr : IsRect mat m n) (p : ℕ) :
    IsRect (padRight mat p) m (n + p) := by
  obtain ⟨hlen, hrow⟩ := hr
  constructor
  · simp [padRight, hlen]
  · intro row hmem
    simp only [padRight, List.mem_map] at hmem
    obtain ⟨r, hr', rfl⟩ := hmem
    simp [hrow r hr']

theorem isRect_paddedOf {mat : Grid} {m n : ℕ} (hr : IsRect mat m n) (hm : 0 < m)
    (ys xs : ℕ) :
    IsRect (paddedOf mat ys xs) (m + yPadOf m ys) (n + yPadOf n xs) := by
  have h0 : shape0 mat = m := hr.1
  have h1 : shape1 mat = n := shape1_of_isRect hr hm
  simp only [paddedOf]
  rw [h0, h1]
  have hmat1 : IsRect (if 0 < yPadOf m ys then padBottom mat (yPadOf m ys) n else mat)
      (m + yPadOf m ys) n := by
    split_ifs with hy
    · exact isRect_padBottom hr _
    · have : yPadOf m ys = 0 := by omega
      rw [this]
      simpa using hr
  by_cases hx : 0 < yPadOf n xs
  · rw [if_pos hx]
    exact isRect_padRight hmat1 _
  · rw [if_neg hx]
    have hx0 : yPadOf n xs = 0 := by omega
    rw [hx0]
    simpa using hmat1

theorem paddedOf_of_noPad {mat : Grid} {ys xs : ℕ}
    (hy : yPadOf (shape0 mat) ys = 0) (hx : yPadOf (shape1 mat) xs = 0) :
    paddedOf mat ys xs = mat := by
  unfold paddedOf
  rw [hy, hx]
  simp

/-! ### Evaluating the branches of `scaleMatrix` -/

theorem scaleMatrix_pos (mat : Grid) {ys xs : ℕ} (hys : 0 < ys) (hxs : 0 < xs)
    (strict : Bool) :
    scaleMatrix mat (ys : ℤ) (xs : ℤ) strict = .ok (upscaled mat ys xs) := by
  unfold scaleMatrix
  rw [if_neg (by omega), if_pos (by constructor <;> [exact_mod_cast hxs; exact_mod_cast hys])]
  simp

theorem scaleMatrix_down_strict (mat : Grid) {ys xs : ℕ} (hys : 0 < ys) (hxs : 0 < xs)
    (hdy : shape0 mat % ys = 0) (hdx : shape1 mat % xs = 0) :
    scaleMatrix mat (-(ys : ℤ)) (-(xs : ℤ)) true = .ok (downCore mat ys xs 0 0) := by
  unfold scaleMatrix
  rw [if_neg (by omega), if_neg (by omega), if_pos (by constructor <;> omega)]
  simp [hdy, hdx]

theorem scaleMatrix_down_lenient (mat : Grid) {ys xs : ℕ} (hys : 0 < ys) (hxs : 0 < xs) :
    scaleMatrix mat (-(ys : ℤ)) (-(xs : ℤ)) false
      = .ok (downCore (paddedOf mat ys xs) ys xs
          (yPadOf (shape0 mat) ys) (yPadOf (shape1 mat) xs)) := by
  unfold scaleMatrix
  rw [if_neg (by omega), if_neg (by omega), if_pos (by constructor <;> omega)]
  simp

theorem double_sum_const (ys xs : ℕ) (c : ℚ) :
    (∑ _yo in Finset.range ys, ∑ _xo in Finset.range xs, c)
      = ((ys : ℚ) * (xs : ℚ)) * c := by
  rw [Finset.sum_const, Finset.sum_const, Finset.card_range, Finset.card_range,
      smul_smul, nsmul_eq_mul]
  push_cast
  ring

theorem cell_downCore_of_const {mat : Grid} {ys xs i j : ℕ} (c : ℚ)
    (hys : 0 < ys) (hxs : 0 < xs)
    (h0 : 0 < shape0 mat / ys) (hi : i < shape0 mat / ys) (hj : j < shape1 mat / xs)
    (hconst : ∀ yo < ys, ∀ xo < xs, cell mat (i * ys + yo) (j * xs + xo) = c) :
    cell (downCore mat ys xs 0 0) i j = c := by
  rw [cell_downCore_noPad h0 hi hj, blockSum_eq_sum]
  have hsum : (∑ yo in Finset.range ys, ∑ xo in Finset.range xs,
      cell mat (i * ys + yo) (j * xs + xo))
      = ∑ _yo in Finset.range ys, ∑ _xo in Finset.range xs, c :=
    Finset.sum_congr rfl fun yo hyo => Finset.sum_congr rfl fun xo hxo =>
      hconst yo (Finset.mem_range.mp hyo) xo (Finset.mem_range.mp hxo)
  rw [hsum, double_sum_const, mul_comm ((xs : ℚ)) ((ys : ℚ)), mul_div_cancel_left₀]
  exact ne_of_gt (mul_pos (by exact_mod_cast hys) (by exact_mod_cast hxs))

theorem grid_eq_of_cells {A B : Grid} {m n : ℕ} (hA : IsRect A m n) (hB : IsRect B m n)
    (H : ∀ i < m, ∀ j < n, cell A i j = cell B i j) : A = B := by
  rw [← mkGrid_cell_self hA, ← mkGrid_cell_self hB]
  exact mkGrid_congr H

theorem corrCell_corner (ys xs yPad xPad h w : ℕ) (v : ℚ) :
    corrCell ys xs yPad xPad h w (h - 1) (w - 1) v
      = if 0 < yPad then
          v * (((ys : ℚ) * (xs : ℚ))
            / (((ys : ℚ) - (yPad : ℚ)) * ((xs : ℚ) - (xPad : ℚ))))
        else v := by
  simp [corrCell]

/-! ### Claim theorems -/

/-- C1: the claim states that the `yPad` correction rescales the last
output row and the `xPad` correction the last output column.  The code
does the opposite: `out[:-1,-1] *= ys/(ys-yPad)` touches the last
COLUMN and `out[-1,:-1] *= xs/(xs-xPad)` the last ROW.  Evaluating the
code on a 4x4 grid of ones with scale `(-3,-2)` (`yPad = 2`,
`xPad = 0`) returns `[[1, 3], [1/3, 1]]`: the last-column cell `(0,1)`
has been multiplied by `ys/(ys-yPad) = 3` although its block holds six
real ones (true average 1), while the last-row cell `(1,0)`, whose
block does contain the padding rows, is left at the diluted raw value
`1/3`.  Under the claim the result would have been `[[1, 1], [1, 1]]`
at those two cells. -/
theorem C1_code_eval :
    scaleMatrix onesGrid4 (-3) (-2) false = .ok [[1, 3], [1/3, 1]] := by
  rw [show scaleMatrix onesGrid4 (-3) (-2) false
      = Except.ok (downCore (paddedOf onesGrid4 3 2) 3 2 2 0) from rfl,
     show paddedOf onesGrid4 3 2
      = [[1,1,1,1],[1,1,1,1],[1,1,1,1],[1,1,1,1],[0,0,0,0],[0,0,0,0]] from rfl]
  norm_num [downCore, corrected, rawDown, mkGrid, blockSum, corrCell, cell, List.getD,
    shape0, shape1, show List.range 2 = [0,1] from rfl, show List.range 3 = [0,1,2] from rfl]

/-- C2: the claim states that every lenient-downscale output cell is
the mean of exactly the real input cells of its block.  Evaluating the
code on a 4x4 grid of ones with scale `(-2,-3)` (`yPad = 0`,
`xPad = 2`) returns `[[1, 1/3], [3, 1/3]]`, whereas the true
real-cell mean of every block is 1: cell `(0,1)` stays diluted by the
padding zeros (it would need the `xs/(xs-xPad) = 3` correction but the
code applies the `yPad`-guarded correction to the last column, and
`yPad = 0` here), cell `(1,0)` is inflated to 3, and the corner cell
`(1,1)` keeps its diluted raw value because the corner fix is guarded
by `yPad > 0` alone. -/
theorem C2_code_eval :
    scaleMatrix onesGrid4 (-2) (-3) false = .ok [[1, 1/3], [3, 1/3]] := by
  rw [show scaleMatrix onesGrid4 (-2) (-3) false
      = Except.ok (downCore (paddedOf onesGrid4 2 3) 2 3 0 2) from rfl,
     show paddedOf onesGrid4 2 3
      = [[1,1,1,1,0,0],[1,1,1,1,0,0],[1,1,1,1,0,0],[1,1,1,1,0,0]] from rfl]
  norm_num [downCore, corrected, rawDown, mkGrid, blockSum, corrCell, cell, List.getD,
    shape0, shape1, show List.range 2 = [0,1] from rfl, show List.range 3 = [0,1,2] from rfl]

/-- C3: on the worked-example grid
`[[1,1,1,1],[2,2,3,3],[4,4,5,5],[6,7,8,9]]` with scale `(-3,-3)` and
`strict = false` the call succeeds and returns exactly
`[[23/9, 3], [7, 9]]` (top-left `2.555...`, top-right `3`, bottom-left
`7`, bottom-right `9`), as the spec mandates. -/
theorem C3_worked_example :
    scaleMatrix exampleGrid (-3) (-3) false = .ok [[23/9, 3], [7, 9]] := by
  rw [show scaleMatrix exampleGrid (-3) (-3) false
      = Except.ok (downCore (paddedOf exampleGrid 3 3) 3 3 2 2) from rfl,
     show paddedOf exampleGrid 3 3
      = [[1,1,1,1,0,0],[2,2,3,3,0,0],[4,4,5,5,0,0],[6,7,8,9,0,0],
         [0,0,0,0,0,0],[0,0,0,0,0,0]] from rfl]
  norm_num [downCore, corrected, rawDown, mkGrid, blockSum, corrCell, cell, List.getD,
    shape0, shape1, show List.range 2 = [0,1] from rfl, show List.range 3 = [0,1,2] from rfl]

/-- C7: the `NonDivisibleScale` error is returned if and only if both
factors are strictly negative, `strict = true`, and one of the factor
magnitudes fails to divide its dimension; in particular the 4x4
worked-example grid with scale `(-3,-3)` and `strict = true` yields
this error.  An `Except.error` result carries no output grid, so the
error precedes any output. -/
theorem C7_nonDivisible_characterization :
    (∀ (mat : Grid) (yScale xScale : ℤ) (strict : Bool),
        scaleMatrix mat yScale xScale strict = .error .nonDivisible
          ↔ yScale < 0 ∧ xScale < 0 ∧ strict = true
            ∧ ¬(shape0 mat % (-yScale).toNat = 0 ∧ shape1 mat % (-xScale).toNat = 0))
    ∧ scaleMatrix exampleGrid (-3) (-3) true = .error .nonDivisible := by
  constructor
  · intro mat y x strict
    unfold scaleMatrix
    split_ifs with h1 h2 h3 h4 h5
    · simp only [false_iff]
      rintro ⟨hy, -, -, -⟩
      omega
    · simp only [false_iff]
      rintro ⟨hy, hx, -, -⟩
      omega
    · simp only [false_iff]
      rintro ⟨-, -, -, hnd⟩
      exact hnd h5
    · constructor
      · intro _
        exact ⟨h3.2, h3.1, h4, h5⟩
      · intro _
        rfl
    · simp only [false_iff]
      rintro ⟨-, -, hs, -⟩
      exact h4 hs
    · constructor
      · intro h
        injection h with h'
        exact ScaleErr.noConfusion h'
      · rintro ⟨hy, hx, -, -⟩
        exact absurd ⟨hx, hy⟩ h3
  · rfl

/-- C9 counterexample: the claim asserts that every successful call,
including the `(0,0)` identity case, returns a grid distinct from the
input.  On the `(0,0)` path the source executes `return mat`: the call
returns the input grid itself, here shown at the concrete input
`[[1]]` whose result is exactly the input value, not a distinct
fresh buffer. -/
theorem C9_identity_counterexample :
    scaleMatrix [[(1 : ℚ)]] 0 0 true = .ok [[(1 : ℚ)]] := rfl

/-- C9 amended: on the both-zero scale path the function returns the
input grid itself (the source line `return mat`), for every input and
either strictness; all other successful paths construct their output
afresh, and the input is never mutated (the routine writes only into
its own newly created `out` array). -/
theorem C9_identity_returns_input (mat : Grid) (strict : Bool) :
    scaleMatrix mat 0 0 strict = .ok mat := by
  unfold scaleMatrix
  simp

/-- C10: a scale pair with exactly one zero component falls through
all three handled cases (identity, upscale, downscale) and raises the
same-direction (mixed-direction) error; it is never the identity
no-op and never a one-axis scaling. -/
theorem C10_single_zero_error (mat : Grid) (yScale xScale : ℤ) (strict : Bool)
    (h : (yScale = 0 ∧ xScale ≠ 0) ∨ (yScale ≠ 0 ∧ xScale = 0)) :
    scaleMatrix mat yScale xScale strict = .error .mixedDirection := by
  unfold scaleMatrix
  rw [if_neg (by omega), if_neg (by omega), if_neg (by omega)]

/-- C5: upscaling an `m x n` grid by positive factors `(ys, xs)`
succeeds for either strictness, the output is an `m*ys x n*xs` grid,
every output cell `(r, c)` carries input cell `(r / ys, c / xs)`, and
equivalently every input cell `(i, j)` is replicated across the whole
`ys x xs` output block at `(i*ys, j*xs)` with no averaging. -/
theorem C5_upscale_replication (mat : Grid) (m n ys xs : ℕ) (strict : Bool)
    (hrect : IsRect mat m n) (hm : 0 < m) (hys : 0 < ys) (hxs : 0 < xs) :
    scaleMatrix mat (ys : ℤ) (xs : ℤ) strict = .ok (upscaled mat ys xs)
    ∧ IsRect (upscaled mat ys xs) (m * ys) (n * xs)
    ∧ (∀ r < m * ys, ∀ c < n * xs,
        cell (upscaled mat ys xs) r c = cell mat (r / ys) (c / xs))
    ∧ (∀ i < m, ∀ j < n, ∀ yo < ys, ∀ xo < xs,
        cell (upscaled mat ys xs) (i * ys + yo) (j * xs + xo) = cell mat i j) := by
  have h0 : shape0 mat = m := hrect.1
  have h1 : shape1 mat = n := shape1_of_isRect hrect hm
  refine ⟨scaleMatrix_pos mat hys hxs strict, ?_, ?_, ?_⟩
  · unfold upscaled
    rw [h0, h1]
    exact isRect_mkGrid _ _ _
  · intro r hr c hc
    exact cell_upscaled (by rw [h0]; exact hr) (by rw [h1]; exact hc)
  · intro i hi j hj yo hyo xo hxo
    exact cell_upscaled_block hys hxs (by rw [h0]; exact hi) (by rw [h1]; exact hj) hyo hxo

/-- C5 witness: `[[1,2],[3,4]]` upscaled by `(2, 3)`. -/
theorem C5_upscale_replication_witness :
    (IsRect [[(1 : ℚ), 2], [3, 4]] 2 2 ∧ 0 < 2 ∧ 0 < 2 ∧ 0 < 3)
    ∧ (scaleMatrix [[(1 : ℚ), 2], [3, 4]] ((2 : ℕ) : ℤ) ((3 : ℕ) : ℤ) true
        = .ok (upscaled [[(1 : ℚ), 2], [3, 4]] 2 3)
      ∧ IsRect (upscaled [[(1 : ℚ), 2], [3, 4]] 2 3) (2 * 2) (2 * 3)
      ∧ (∀ r < 2 * 2, ∀ c < 2 * 3,
          cell (upscaled [[(1 : ℚ), 2], [3, 4]] 2 3) r c
            = cell [[(1 : ℚ), 2], [3, 4]] (r / 2) (c / 3))
      ∧ (∀ i < 2, ∀ j < 2, ∀ yo < 2, ∀ xo < 3,
          cell (upscaled [[(1 : ℚ), 2], [3, 4]] 2 3) (i * 2 + yo) (j * 3 + xo)
            = cell [[(1 : ℚ), 2], [3, 4]] i j)) :=
  ⟨⟨by decide, by decide, by decide, by decide⟩,
   C5_upscale_replication [[(1 : ℚ), 2], [3, 4]] 2 2 2 3 true (by decide) (by decide)
     (by decide) (by decide)⟩

/-- C6: downscaling an `m x n` grid by `(-ys, -xs)` with `ys ∣ m` and
`xs ∣ n` succeeds for either value of `strict`, the output is an
`m/ys x n/xs` grid, and each output cell `(i, j)` is the arithmetic
mean of the `ys*xs` input cells of its block (sum divided by
`ys*xs`). -/
theorem C6_exact_downscale_mean (mat : Grid) (m n ys xs : ℕ) (strict : Bool)
    (hrect : IsRect mat m n) (hm : 0 < m) (hn : 0 < n) (hys : 0 < ys) (hxs : 0 < xs)
    (hdy : m % ys = 0) (hdx : n % xs = 0) :
    scaleMatrix mat (-(ys : ℤ)) (-(xs : ℤ)) strict = .ok (downCore mat ys xs 0 0)
    ∧ IsRect (downCore mat ys xs 0 0) (m / ys) (n / xs)
    ∧ ∀ i < m / ys, ∀ j < n / xs,
        cell (downCore mat ys xs 0 0) i j
          = (∑ yo in Finset.range ys, ∑ xo in Finset.range xs,
              cell mat (i * ys + yo) (j * xs + xo)) / ((ys : ℚ) * (xs : ℚ)) := by
  have h0 : shape0 mat = m := hrect.1
  have h1 : shape1 mat = n := shape1_of_isRect hrect hm
  have hdy0 : shape0 mat % ys = 0 := by rw [h0]; exact hdy
  have hdx0 : shape1 mat % xs = 0 := by rw [h1]; exact hdx
  have hpos : 0 < shape0 mat / ys := by
    rw [h0]
    exact div_pos_of_mod_eq_zero hm hys hdy
  refine ⟨?_, ?_, ?_⟩
  · cases strict with
    | false =>
        rw [scaleMatrix_down_lenient mat hys hxs, yPadOf_of_mod_eq_zero hdy0,
            yPadOf_of_mod_eq_zero hdx0,
            paddedOf_of_noPad (yPadOf_of_mod_eq_zero hdy0) (yPadOf_of_mod_eq_zero hdx0)]
    | true => exact scaleMatrix_down_strict mat hys hxs hdy0 hdx0
  · have h := isRect_downCore mat ys xs 0 0 hpos
    rwa [h0, h1] at h
  · intro i hi j hj
    rw [cell_downCore_noPad hpos (by rw [h0]; exact hi) (by rw [h1]; exact hj),
        blockSum_eq_sum, mul_comm ((xs : ℚ)) ((ys : ℚ))]

/-- C6 witness: `[[1,2],[3,4]]` downscaled by `(-2, -2)` in strict
mode. -/
theorem C6_exact_downscale_mean_witness :
    (IsRect [[(1 : ℚ), 2], [3, 4]] 2 2 ∧ 0 < 2 ∧ 0 < 2 ∧ 0 < 2 ∧ 0 < 2
      ∧ 2 % 2 = 0 ∧ 2 % 2 = 0)
    ∧ (scaleMatrix [[(1 : ℚ), 2], [3, 4]] (-((2 : ℕ) : ℤ)) (-((2 : ℕ) : ℤ)) true
        = .ok (downCore [[(1 : ℚ), 2], [3, 4]] 2 2 0 0)
      ∧ IsRect (downCore [[(1 : ℚ), 2], [3, 4]] 2 2 0 0) (2 / 2) (2 / 2)
      ∧ ∀ i < 2 / 2, ∀ j < 2 / 2,
          cell (downCore [[(1 : ℚ), 2], [3, 4]] 2 2 0 0) i j
            = (∑ yo in Finset.range 2, ∑ xo in Finset.range 2,
                cell [[(1 : ℚ), 2], [3, 4]] (i * 2 + yo) (j * 2 + xo))
              / (((2 : ℕ) : ℚ) * ((2 : ℕ) : ℚ))) :=
  ⟨⟨by decide, by decide, by decide, by decide, by decide, by decide, by decide⟩,
   C6_exact_downscale_mean [[(1 : ℚ), 2], [3, 4]] 2 2 2 2 true (by decide) (by decide)
     (by decide) (by decide) (by decide) (by decide) (by decide)⟩

/-- C4: in the lenient downscale of an `m x n` grid the bottom-right
corner cell of the output is treated asymmetrically in the two
single-axis-padding situations: when `yPad > 0` and `xPad = 0` the
corner is rescaled by `ys*xs/((ys-yPad)*(xs-0)) = ys/(ys-yPad)`
(the combined factor degenerates to the single-axis one), but when
`xPad > 0` and `yPad = 0` the corner receives no correction at all,
because the corner fix in the source is guarded by `yPad > 0` only. -/
theorem C4_corner_asymmetry (mat : Grid) (m n ys xs : ℕ)
    (hrect : IsRect mat m n) (hm : 0 < m) (hn : 0 < n) (hys : 0 < ys) (hxs : 0 < xs) :
    scaleMatrix mat (-(ys : ℤ)) (-(xs : ℤ)) false
      = .ok (downCore (paddedOf mat ys xs) ys xs (yPadOf m ys) (yPadOf n xs))
    ∧ (0 < yPadOf m ys → yPadOf n xs = 0 →
        cell (downCore (paddedOf mat ys xs) ys xs (yPadOf m ys) (yPadOf n xs))
            ((m + yPadOf m ys) / ys - 1) ((n + yPadOf n xs) / xs - 1)
          = cell (rawDown (paddedOf mat ys xs) ys xs)
              ((m + yPadOf m ys) / ys - 1) ((n + yPadOf n xs) / xs - 1)
            * ((ys : ℚ) / ((ys : ℚ) - (yPadOf m ys : ℚ))))
    ∧ (0 < yPadOf n xs → yPadOf m ys = 0 →
        cell (downCore (paddedOf mat ys xs) ys xs (yPadOf m ys) (yPadOf n xs))
            ((m + yPadOf m ys) / ys - 1) ((n + yPadOf n xs) / xs - 1)
          = cell (rawDown (paddedOf mat ys xs) ys xs)
              ((m + yPadOf m ys) / ys - 1) ((n + yPadOf n xs) / xs - 1)) := by
  have h0 : shape0 mat = m := hrect.1
  have h1 : shape1 mat = n := shape1_of_isRect hrect hm
  have hPrect : IsRect (paddedOf mat ys xs) (m + yPadOf m ys) (n + yPadOf n xs) :=
    isRect_paddedOf hrect hm ys xs
  have hP0 : shape0 (paddedOf mat ys xs) = m + yPadOf m ys := hPrect.1
  have hP1 : shape1 (paddedOf mat ys xs) = n + yPadOf n xs :=
    shape1_of_isRect hPrect (by omega)
  have hposL : 0 < (m + yPadOf m ys) / ys :=
    div_pos_of_mod_eq_zero (by omega) hys (padded_mod hys)
  have hposW : 0 < (n + yPadOf n xs) / xs :=
    div_pos_of_mod_eq_zero (by omega) hxs (padded_mod hxs)
  have hposL' : 0 < shape0 (paddedOf mat ys xs) / ys := by
    rw [hP0]
    exact hposL
  have hrawlen : (rawDown (paddedOf mat ys xs) ys xs).length = (m + yPadOf m ys) / ys := by
    rw [length_rawDown, hP0]
  have hraw1 : shape1 (rawDown (paddedOf mat ys xs) ys xs) = (n + yPadOf n xs) / xs := by
    rw [shape1_rawDown xs hposL', hP1]
  have hcorner : cell (downCore (paddedOf mat ys xs) ys xs (yPadOf m ys) (yPadOf n xs))
      ((m + yPadOf m ys) / ys - 1) ((n + yPadOf n xs) / xs - 1)
      = if 0 < yPadOf m ys then
          cell (rawDown (paddedOf mat ys xs) ys xs) ((m + yPadOf m ys) / ys - 1)
            ((n + yPadOf n xs) / xs - 1)
            * (((ys : ℚ) * (xs : ℚ))
              / (((ys : ℚ) - (yPadOf m ys : ℚ)) * ((xs : ℚ) - (yPadOf n xs : ℚ))))
        else cell (rawDown (paddedOf mat ys xs) ys xs) ((m + yPadOf m ys) / ys - 1)
            ((n + yPadOf n xs) / xs - 1) := by
    unfold downCore
    rw [cell_corrected _ _ _ _ (by rw [hrawlen]; omega) (by rw [hraw1]; omega),
        hrawlen, hraw1]
    exact corrCell_corner _ _ _ _ _ _ _
  refine ⟨?_, ?_, ?_⟩
  · rw [scaleMatrix_down_lenient mat hys hxs, h0, h1]
  · intro hyp hxp0
    have hxsQ : (xs : ℚ) ≠ 0 := by exact_mod_cast hxs.ne'
    rw [hcorner, if_pos hyp, hxp0]
    rw [Nat.cast_zero, sub_zero, mul_div_mul_right _ _ hxsQ]
  · intro hxp hyp0
    rw [hcorner, if_neg (by omega)]

/-- C4 witness: the 4x4 ones grid with scale `(-3,-2)`: there
`yPadOf 4 3 = 2 > 0` and `yPadOf 4 2 = 0`, so the first implication is
the active one. -/
theorem C4_corner_asymmetry_witness :
    (IsRect onesGrid4 4 4 ∧ 0 < 4 ∧ 0 < 4 ∧ 0 < 3 ∧ 0 < 2)
    ∧ (scaleMatrix onesGrid4 (-((3 : ℕ) : ℤ)) (-((2 : ℕ) : ℤ)) false
        = .ok (downCore (paddedOf onesGrid4 3 2) 3 2 (yPadOf 4 3) (yPadOf 4 2))
      ∧ (0 < yPadOf 4 3 → yPadOf 4 2 = 0 →
          cell (downCore (paddedOf onesGrid4 3 2) 3 2 (yPadOf 4 3) (yPadOf 4 2))
              ((4 + yPadOf 4 3) / 3 - 1) ((4 + yPadOf 4 2) / 2 - 1)
            = cell (rawDown (paddedOf onesGrid4 3 2) 3 2)
                ((4 + yPadOf 4 3) / 3 - 1) ((4 + yPadOf 4 2) / 2 - 1)
              * (((3 : ℕ) : ℚ) / (((3 : ℕ) : ℚ) - ((yPadOf 4 3 : ℕ) : ℚ))))
      ∧ (0 < yPadOf 4 2 → yPadOf 4 3 = 0 →
          cell (downCore (paddedOf onesGrid4 3 2) 3 2 (yPadOf 4 3) (yPadOf 4 2))
              ((4 + yPadOf 4 3) / 3 - 1) ((4 + yPadOf 4 2) / 2 - 1)
            = cell (rawDown (paddedOf onesGrid4 3 2) 3 2)
                ((4 + yPadOf 4 3) / 3 - 1) ((4 + yPadOf 4 2) / 2 - 1))) :=
  ⟨⟨by decide, by decide, by decide, by decide, by decide⟩,
   C4_corner_asymmetry onesGrid4 4 4 3 2 (by decide) (by decide) (by decide)
     (by decide) (by decide)⟩

/-- C8: for an `m x n` grid with `ys ∣ m` and `xs ∣ n`, upscaling by
`(ys, xs)` and then strict-downscaling by `(-ys, -xs)` succeeds and
returns a grid value-equal to the original; and for a grid whose
`ys x xs` blocks are uniform (every cell equals the top-left cell of
its block), strict-downscale followed by upscale also reproduces the
original exactly. -/
theorem C8_round_trip (mat : Grid) (m n ys xs : ℕ)
    (hrect : IsRect mat m n) (hm : 0 < m) (hn : 0 < n) (hys : 0 < ys) (hxs : 0 < xs)
    (hdy : m % ys = 0) (hdx : n % xs = 0) :
    (scaleMatrix mat (ys : ℤ) (xs : ℤ) true = .ok (upscaled mat ys xs)
      ∧ scaleMatrix (upscaled mat ys xs) (-(ys : ℤ)) (-(xs : ℤ)) true = .ok mat)
    ∧ ((∀ r < m, ∀ c < n, cell mat r c = cell mat (ys * (r / ys)) (xs * (c / xs)))
        → scaleMatrix mat (-(ys : ℤ)) (-(xs : ℤ)) true = .ok (downCore mat ys xs 0 0)
          ∧ scaleMatrix (downCore mat ys xs 0 0) (ys : ℤ) (xs : ℤ) true = .ok mat) := by
  have h0 : shape0 mat = m := hrect.1
  have h1 : shape1 mat = n := shape1_of_isRect hrect hm
  have hdvy : ys ∣ m := Nat.dvd_of_mod_eq_zero hdy
  have hdvx : xs ∣ n := Nat.dvd_of_mod_eq_zero hdx
  constructor
  · refine ⟨scaleMatrix_pos mat hys hxs true, ?_⟩
    have hup : IsRect (upscaled mat ys xs) (m * ys) (n * xs) := by
      unfold upscaled
      rw [h0, h1]
      exact isRect_mkGrid _ _ _
    have hs0 : shape0 (upscaled mat ys xs) = m * ys := hup.1
    have hs1 : shape1 (upscaled mat ys xs) = n * xs :=
      shape1_of_isRect hup (Nat.mul_pos hm hys)
    have hd1 : shape0 (upscaled mat ys xs) % ys = 0 := by
      rw [hs0]
      exact Nat.mul_mod_left m ys
    have hd2 : shape1 (upscaled mat ys xs) % xs = 0 := by
      rw [hs1]
      exact Nat.mul_mod_left n xs
    rw [scaleMatrix_down_strict (upscaled mat ys xs) hys hxs hd1 hd2]
    have hpos : 0 < shape0 (upscaled mat ys xs) / ys := by
      rw [hs0, Nat.mul_div_cancel m hys]
      exact hm
    have hdown : IsRect (downCore (upscaled mat ys xs) ys xs 0 0) m n := by
      have h := isRect_downCore (upscaled mat ys xs) ys xs 0 0 hpos
      rwa [hs0, hs1, Nat.mul_div_cancel m hys, Nat.mul_div_cancel n hxs] at h
    have hcells : ∀ i < m, ∀ j < n,
        cell (downCore (upscaled mat ys xs) ys xs 0 0) i j = cell mat i j := by
      intro i hi j hj
      refine cell_downCore_of_const (cell mat i j) hys hxs hpos ?_ ?_ ?_
      · rw [hs0, Nat.mul_div_cancel m hys]
        exact hi
      · rw [hs1, Nat.mul_div_cancel n hxs]
        exact hj
      · intro yo hyo xo hxo
        exact cell_upscaled_block hys hxs (by rw [h0]; exact hi) (by rw [h1]; exact hj)
          hyo hxo
    rw [grid_eq_of_cells hdown hrect hcells]
  · intro huni
    have hdy0 : shape0 mat % ys = 0 := by rw [h0]; exact hdy
    have hdx0 : shape1 mat % xs = 0 := by rw [h1]; exact hdx
    refine ⟨scaleMatrix_down_strict mat hys hxs hdy0 hdx0, ?_⟩
    have hpos : 0 < shape0 mat / ys := by
      rw [h0]
      exact div_pos_of_mod_eq_zero hm hys hdy
    have hdown : IsRect (downCore mat ys xs 0 0) (m / ys) (n / xs) := by
      have h := isRect_downCore mat ys xs 0 0 hpos
      rwa [h0, h1] at h
    have hDpos : 0 < m / ys := div_pos_of_mod_eq_zero hm hys hdy
    have hdcell : ∀ a < m / ys, ∀ b < n / xs,
        cell (downCore mat ys xs 0 0) a b = cell mat (ys * a) (xs * b) := by
      intro a ha b hb
      refine cell_downCore_of_const (cell mat (ys * a) (xs * b)) hys hxs hpos
        (by rw [h0]; exact ha) (by rw [h1]; exact hb) ?_
      intro yo hyo xo hxo
      have hlt1 : a * ys + yo < m := by
        have h2 := block_lt_mul ha hyo
        rwa [Nat.div_mul_cancel hdvy] at h2
      have hlt2 : b * xs + xo < n := by
        have h2 := block_lt_mul hb hxo
        rwa [Nat.div_mul_cancel hdvx] at h2
      have h3 := huni (a * ys + yo) hlt1 (b * xs + xo) hlt2
      rwa [block_div hys hyo, block_div hxs hxo] at h3
    rw [scaleMatrix_pos (downCore mat ys xs 0 0) hys hxs true]
    have hd0 : shape0 (downCore mat ys xs 0 0) = m / ys := hdown.1
    have hd1 : shape1 (downCore mat ys xs 0 0) = n / xs := shape1_of_isRect hdown hDpos
    have hupD : IsRect (upscaled (downCore mat ys xs 0 0) ys xs) m n := by
      unfold upscaled
      rw [hd0, hd1, Nat.div_mul_cancel hdvy, Nat.div_mul_cancel hdvx]
      exact isRect_mkGrid _ _ _
    have hcells2 : ∀ r < m, ∀ c < n,
        cell (upscaled (downCore mat ys xs 0 0) ys xs) r c = cell mat r c := by
      intro r hr c hc
      have hb1 : r < shape0 (downCore mat ys xs 0 0) * ys := by
        rw [hd0, Nat.div_mul_cancel hdvy]
        exact hr
      have hb2 : c < shape1 (downCore mat ys xs 0 0) * xs := by
        rw [hd1, Nat.div_mul_cancel hdvx]
        exact hc
      rw [cell_upscaled hb1 hb2,
          hdcell (r / ys) (Nat.div_lt_div_of_lt_of_dvd hdvy hr)
            (c / xs) (Nat.div_lt_div_of_lt_of_dvd hdvx hc)]
      exact (huni r hr c hc).symm
    rw [grid_eq_of_cells hupD hrect hcells2]

/-- C8 witness: the uniform grid `[[3,3],[3,3]]` with factors
`(2, 2)`. -/
theorem C8_round_trip_witness :
    (IsRect [[(3 : ℚ), 3], [3, 3]] 2 2 ∧ 0 < 2 ∧ 0 < 2 ∧ 0 < 2 ∧ 0 < 2
      ∧ 2 % 2 = 0 ∧ 2 % 2 = 0)
    ∧ ((scaleMatrix [[(3 : ℚ), 3], [3, 3]] ((2 : ℕ) : ℤ) ((2 : ℕ) : ℤ) true
          = .ok (upscaled [[(3 : ℚ), 3], [3, 3]] 2 2)
        ∧ scaleMatrix (upscaled [[(3 : ℚ), 3], [3, 3]] 2 2)
            (-((2 : ℕ) : ℤ)) (-((2 : ℕ) : ℤ)) true = .ok [[(3 : ℚ), 3], [3, 3]])
      ∧ ((∀ r < 2, ∀ c < 2, cell [[(3 : ℚ), 3], [3, 3]] r c
            = cell [[(3 : ℚ), 3], [3, 3]] (2 * (r / 2)) (2 * (c / 2)))
          → scaleMatrix [[(3 : ℚ), 3], [3, 3]] (-((2 : ℕ) : ℤ)) (-((2 : ℕ) : ℤ)) true
              = .ok (downCore [[(3 : ℚ), 3], [3, 3]] 2 2 0 0)
            ∧ scaleMatrix (downCore [[(3 : ℚ), 3], [3, 3]] 2 2 0 0)
                ((2 : ℕ) : ℤ) ((2 : ℕ) : ℤ) true = .ok [[(3 : ℚ), 3], [3, 3]])) :=
  ⟨⟨by decide, by decide, by decide, by decide, by decide, by decide, by decide⟩,
   C8_round_trip [[(3 : ℚ), 3], [3, 3]] 2 2 2 2 (by decide) (by decide) (by decide)
     (by decide) (by decide) (by decide) (by decide)⟩

/-- C10 witness: `(0, 2)` on the worked-example grid. -/
theorem C10_single_zero_error_witness :
    (((0 : ℤ) = 0 ∧ (2 : ℤ) ≠ 0) ∨ ((0 : ℤ) ≠ 0 ∧ (2 : ℤ) = 0))
      ∧ scaleMatrix exampleGrid 0 2 true = .error .mixedDirection :=
  ⟨Or.inl ⟨rfl, by decide⟩,
   C10_single_zero_error exampleGrid 0 2 true (Or.inl ⟨rfl, by decide⟩)⟩

end GeoKit
